import Mathlib

/-!
Verification of the edu-crm-backend scheduling and enrollment services.

This file gives a shallow embedding of the relevant service methods of
`src/groups/groups.service.ts`, `src/rooms/rooms.service.ts` and
`src/students/students.service.ts`, together with theorems settling the
behavioural claims about them.

Modelling conventions:
- The Prisma store is modelled as explicit lists of records; `findMany`
  with a `where` object becomes `List.filter`, `findUnique`/`findFirst`
  become `List.find?`, `count` becomes `List.countP`.
- Time-of-day values travel as `"HH:mm:ss"` strings (the services convert
  them to `Date` objects and back with `formatTime`; that round trip is the
  identity on the validated `HH:mm:ss` strings, so string equality models
  `Date` equality of the stored `TIME` column).
- Nullable columns and absent DTO fields are `Option`s.  JavaScript
  truthiness on numeric ids (`if (x)` is false for `undefined` and for `0`)
  is modelled explicitly where the source relies on it.
- Thrown exceptions become explicit error results (`Except`, or outcome
  inductives for the orchestrating methods).
-/

namespace EduCrm

/-- Weekday tokens, enum `DayOfWeek` of the Prisma schema. -/
inductive DayOfWeek
  | MON | TUE | WED | THU | FRI | SAT | SUN
  deriving DecidableEq

/-- Enum `GroupStatus` of the Prisma schema. -/
inductive GroupStatus
  | PLANNED | ONGOING | COMPLETED
  deriving DecidableEq

/-- Enum `CourseStatus` of the Prisma schema. -/
inductive CourseStatus
  | ACTIVE | DRAFT | ARCHIVED
  deriving DecidableEq

/-- Enum `BranchStatus` of the Prisma schema. -/
inductive BranchStatus
  | ACTIVE | INACTIVE
  deriving DecidableEq

/-- Enum `TeacherStatus` of the Prisma schema. -/
inductive TeacherStatus
  | ACTIVE | INACTIVE
  deriving DecidableEq

/-- A row of the `groups` table (columns used by the services under
verification; `start_time` is kept as its `HH:mm:ss` rendering). -/
structure Group where
  id : Nat
  name : String
  courseId : Nat
  roomId : Option Nat
  teacherId : Option Nat
  status : GroupStatus
  days : List DayOfWeek
  start_time : Option String
  start_date : Option String
  end_date : Option String
  branchId : Nat
  deriving DecidableEq

/-- A row of the `rooms` table. -/
structure Room where
  id : Nat
  branchId : Nat
  name : String
  capacity : Nat
  deriving DecidableEq

/-- A row of the `branches` table (fields selected by the validators). -/
structure Branch where
  id : Nat
  status : BranchStatus
  deriving DecidableEq

/-- A row of the `courses` table (fields selected by the validators). -/
structure Course where
  id : Nat
  status : CourseStatus
  branchId : Nat
  deriving DecidableEq

/-- A row of the `teachers` table (fields selected by the validators). -/
structure Teacher where
  id : Nat
  status : TeacherStatus
  branchId : Nat
  deriving DecidableEq

/-- A row of the `students` table (fields used by the enrollment path). -/
structure Student where
  id : String
  fullname : String
  branchId : Nat
  deriving DecidableEq

/-- A row of the `student_group` join table, unique on
`(groupId, studentId)`. -/
structure StudentGroup where
  id : Nat
  groupId : Nat
  studentId : String
  branchId : Nat
  deriving DecidableEq

/-- The persisted state the services read and write: one list per table. -/
structure Db where
  branches : List Branch
  courses : List Course
  teachers : List Teacher
  rooms : List Room
  students : List Student
  groups : List Group
  studentGroups : List StudentGroup
  deriving DecidableEq

/-- JavaScript truthiness of an optional numeric id:
`undefined` and `0` are falsy. -/
def truthyId (o : Option Nat) : Bool :=
  match o with
  | none => false
  | some n => n != 0

/-- Prisma `days: { hasSome: candDays }` on a group's `days` column:
the two lists share at least one weekday. -/
def daysHasSome (groupDays candDays : List DayOfWeek) : Bool :=
  candDays.any (fun d => groupDays.contains d)

/-- Filter fragment `...(excludeGroupId && { id: { not: excludeGroupId } })`:
the exclusion is spread into the `where` object only when `excludeGroupId`
is truthy. -/
def excludeFilter (excludeGroupId : Option Nat) (g : Group) : Bool :=
  match excludeGroupId with
  | none => true
  | some e => if e = 0 then true else g.id != e

/-- Method `formatTime` applied to a stored nullable time, as the conflict
loops use it: `conflict.start_time ? formatTime(...) : 'Unknown'`. -/
def renderTime (t : Option String) : String :=
  match t with
  | some s => s
  | none => "Unknown"

/-- Class `CreateGroupDto` (also the merged candidate state
`{...existingGroup, ...data}` that `update` feeds to the checker). -/
structure CreateGroupDto where
  name : String
  courseId : Nat
  roomId : Option Nat
  teacherId : Option Nat
  status : Option GroupStatus
  days : List DayOfWeek
  start_time : Option String
  start_date : Option String
  end_date : Option String
  branchId : Nat
  deriving DecidableEq

/-- Conflict type tags of `GroupScheduleConflictDto`. -/
inductive ConflictType
  | TEACHER_CONFLICT | ROOM_CONFLICT
  deriving DecidableEq

/-- Class `GroupScheduleConflictDto`. -/
structure GroupScheduleConflictDto where
  conflictType : ConflictType
  conflictingGroupId : Nat
  conflictingGroupName : String
  conflictDays : List DayOfWeek
  conflictTime : String
  deriving DecidableEq

/-- The structured body of the `ConflictException` raised by
`checkScheduleConflicts`. -/
structure ConflictError where
  message : String
  conflicts : List GroupScheduleConflictDto
  deriving DecidableEq

/-- The `where` object of the teacher-dimension `findMany` in
`checkScheduleConflicts`: `teacherId` equals the candidate's, `days`
`hasSome` of the candidate's days, `start_time` equals the candidate's
(converted) time, and the optional id exclusion.  The candidate's
`start_time` is known present when this query runs (the early return has
already fired otherwise), so the `undefined` branch of the ternary never
reaches Prisma. -/
def teacherWhere (groupData : CreateGroupDto) (excludeGroupId : Option Nat)
    (t : Nat) (g : Group) : Bool :=
  decide (g.teacherId = some t)
    && daysHasSome g.days groupData.days
    && decide (g.start_time = groupData.start_time)
    && excludeFilter excludeGroupId g

/-- The `where` object of the room-dimension `findMany` in
`checkScheduleConflicts`, identical to `teacherWhere` with `roomId`
substituted. -/
def roomWhere (groupData : CreateGroupDto) (excludeGroupId : Option Nat)
    (r : Nat) (g : Group) : Bool :=
  decide (g.roomId = some r)
    && daysHasSome g.days groupData.days
    && decide (g.start_time = groupData.start_time)
    && excludeFilter excludeGroupId g

/-- The local `conflictDays` of the push loop:
`groupData.days.filter(day => conflict.days.includes(day))`. -/
def conflictDaysOf (groupData : CreateGroupDto) (conflict : Group) : List DayOfWeek :=
  groupData.days.filter (fun day => conflict.days.contains day)

/-- The conflict record pushed for one matched group. -/
def mkConflictRecord (ctype : ConflictType) (groupData : CreateGroupDto)
    (conflict : Group) : GroupScheduleConflictDto :=
  { conflictType := ctype
    conflictingGroupId := conflict.id
    conflictingGroupName := conflict.name
    conflictDays := conflictDaysOf groupData conflict
    conflictTime := renderTime conflict.start_time }

/-- The per-dimension push loop of `checkScheduleConflicts`: for each
matched group, recompute `conflictDays` and push a record when that
intersection is non-empty (`if (conflictDays.length > 0)`). -/
def pushConflicts (ctype : ConflictType) (groupData : CreateGroupDto)
    (matched : List Group) : List GroupScheduleConflictDto :=
  matched.filterMap (fun conflict =>
    if (conflictDaysOf groupData conflict).length > 0 then
      some (mkConflictRecord ctype groupData conflict)
    else none)

/-- The teacher-dimension block of `checkScheduleConflicts`, guarded by
`if (groupData.teacherId)` (JS truthiness). -/
def teacherConflicts (db : List Group) (groupData : CreateGroupDto)
    (excludeGroupId : Option Nat) : List GroupScheduleConflictDto :=
  match groupData.teacherId with
  | none => []
  | some t =>
    if t = 0 then []
    else pushConflicts .TEACHER_CONFLICT groupData
      (db.filter (teacherWhere groupData excludeGroupId t))

/-- The room-dimension block of `checkScheduleConflicts`, guarded by
`if (groupData.roomId)` (JS truthiness). -/
def roomConflicts (db : List Group) (groupData : CreateGroupDto)
    (excludeGroupId : Option Nat) : List GroupScheduleConflictDto :=
  match groupData.roomId with
  | none => []
  | some r =>
    if r = 0 then []
    else pushConflicts .ROOM_CONFLICT groupData
      (db.filter (roomWhere groupData excludeGroupId r))

/-- The aggregate `conflicts` array built by `checkScheduleConflicts`:
teacher records are pushed first, then room records.  The early return
`if (!groupData.days || !groupData.start_time) return conflicts` fires on
an absent `start_time`; `groupData.days` is a (possibly empty) array on
every validated path and a JavaScript array is always truthy, so the
`!groupData.days` disjunct is constantly false in this model. -/
def conflictsOf (db : List Group) (groupData : CreateGroupDto)
    (excludeGroupId : Option Nat) : List GroupScheduleConflictDto :=
  match groupData.start_time with
  | none => []
  | some _ =>
      teacherConflicts db groupData excludeGroupId
        ++ roomConflicts db groupData excludeGroupId

/-- Method `checkScheduleConflicts` of `GroupsService`: builds the
aggregate list and throws a `ConflictException` carrying it when it is
non-empty, returning the (empty) list otherwise. -/
def checkScheduleConflicts (db : List Group) (groupData : CreateGroupDto)
    (excludeGroupId : Option Nat) :
    Except ConflictError (List GroupScheduleConflictDto) :=
  let conflicts := conflictsOf db groupData excludeGroupId
  if conflicts.length > 0 then
    .error { message := "Schedule conflicts detected", conflicts := conflicts }
  else
    .ok conflicts

/-- One record of the conflict list as the specification's words describe
it (claim C1), used only to be compared with the implementation:
"`{conflictType, conflictingGroupId, conflictingGroupName, conflictDays:
intersection of candidate.days and conflict.days, conflictTime}`".  The
intersection is the candidate-ordered one named by `conflictDays`. -/
def specConflictRecord (ctype : ConflictType) (cand : CreateGroupDto)
    (g : Group) : GroupScheduleConflictDto :=
  { conflictType := ctype
    conflictingGroupId := g.id
    conflictingGroupName := g.name
    conflictDays := cand.days.filter (fun d => g.days.contains d)
    conflictTime := renderTime g.start_time }

/-- One dimension of the checker as the specification's words describe it
(claim C1): one record per existing Group — other than `excludeGroupId` —
whose resource id equals the candidate's, whose days share at least one
weekday with the candidate's days, and whose `start_time` equals the
candidate's exactly; a Group with no resource id on that dimension never
yields a conflict, and a candidate with no resource id yields none. -/
def specDimension (ctype : ConflictType) (resourceOf : Group → Option Nat)
    (candRes : Option Nat) (cand : CreateGroupDto) (excludeGroupId : Option Nat)
    (db : List Group) : List GroupScheduleConflictDto :=
  match candRes with
  | none => []
  | some r =>
    (db.filter (fun g =>
        decide (resourceOf g = some r)
          && daysHasSome g.days cand.days
          && decide (g.start_time = cand.start_time)
          && decide (excludeGroupId ≠ some g.id))).map
      (specConflictRecord ctype cand)

/-- The full conflict list as the specification's words describe it (claim
C1): the teacher dimension followed, identically substituting `roomId`, by
the room dimension. -/
def specConflicts (db : List Group) (cand : CreateGroupDto)
    (excludeGroupId : Option Nat) : List GroupScheduleConflictDto :=
  specDimension .TEACHER_CONFLICT (fun g => g.teacherId) cand.teacherId
      cand excludeGroupId db
    ++ specDimension .ROOM_CONFLICT (fun g => g.roomId) cand.roomId
      cand excludeGroupId db

/-- Stored rows carry positive `SERIAL` ids and reference positive
resource ids: the well-formedness the autoincrement schema guarantees,
under which JavaScript id-truthiness never differs from presence. -/
def WellFormedGroups (db : List Group) : Prop :=
  ∀ g ∈ db, 0 < g.id ∧ g.teacherId ≠ some 0 ∧ g.roomId ≠ some 0

/-- Errors raised by `validateGroupDependencies` and `validateBranch`,
one constructor per distinct `BadRequestException` message. -/
inductive DepError
  | courseNotFound (id : Nat)
  | courseNotActive (id : Nat)
  | courseBranchMismatch (courseId branchId : Nat)
  | branchNotFound (id : Nat)
  | branchNotActive (id : Nat)
  | teacherNotFound (id : Nat)
  | teacherNotActive (id : Nat)
  | teacherBranchMismatch (teacherId branchId : Nat)
  | roomNotFound (id : Nat)
  | roomBranchMismatch (roomId branchId : Nat)
  deriving DecidableEq

/-- The fields of `Partial<CreateGroupDto>` that
`validateGroupDependencies` reads. -/
structure GroupDepInput where
  courseId : Option Nat
  branchId : Option Nat
  teacherId : Option Nat
  roomId : Option Nat
  deriving DecidableEq

/-- The course block of `validateGroupDependencies`, guarded by
`if (data.courseId)` (JS truthiness): not found, then not `ACTIVE`, then —
when `data.branchId` is truthy — branch mismatch. -/
def validateCourseDep (db : Db) (data : GroupDepInput) : Option DepError :=
  match data.courseId with
  | none => none
  | some cid =>
    if cid = 0 then none
    else
      match db.courses.find? (fun c => decide (c.id = cid)) with
      | none => some (.courseNotFound cid)
      | some course =>
        if course.status ≠ CourseStatus.ACTIVE then some (.courseNotActive cid)
        else
          match data.branchId with
          | none => none
          | some b =>
            if b ≠ 0 ∧ course.branchId ≠ b then some (.courseBranchMismatch cid b)
            else none

/-- The branch block of `validateGroupDependencies`. -/
def validateBranchDep (db : Db) (data : GroupDepInput) : Option DepError :=
  match data.branchId with
  | none => none
  | some bid =>
    if bid = 0 then none
    else
      match db.branches.find? (fun b => decide (b.id = bid)) with
      | none => some (.branchNotFound bid)
      | some branch =>
        if branch.status ≠ BranchStatus.ACTIVE then some (.branchNotActive bid)
        else none

/-- The teacher block of `validateGroupDependencies`. -/
def validateTeacherDep (db : Db) (data : GroupDepInput) : Option DepError :=
  match data.teacherId with
  | none => none
  | some tid =>
    if tid = 0 then none
    else
      match db.teachers.find? (fun t => decide (t.id = tid)) with
      | none => some (.teacherNotFound tid)
      | some teacher =>
        if teacher.status ≠ TeacherStatus.ACTIVE then some (.teacherNotActive tid)
        else
          match data.branchId with
          | none => none
          | some b =>
            if b ≠ 0 ∧ teacher.branchId ≠ b then some (.teacherBranchMismatch tid b)
            else none

/-- The room block of `validateGroupDependencies` (no status field on
rooms: existence and branch membership only). -/
def validateRoomDep (db : Db) (data : GroupDepInput) : Option DepError :=
  match data.roomId with
  | none => none
  | some rid =>
    if rid = 0 then none
    else
      match db.rooms.find? (fun r => decide (r.id = rid)) with
      | none => some (.roomNotFound rid)
      | some room =>
        match data.branchId with
        | none => none
        | some b =>
          if b ≠ 0 ∧ room.branchId ≠ b then some (.roomBranchMismatch rid b)
          else none

/-- Method `validateGroupDependencies` of `GroupsService`.  The four
checks run under `Promise.all`; the list collects every failing check in
the order the promises are created (course, branch, teacher, room).  Which
single rejection surfaces at runtime depends on settlement timing, but the
operation fails exactly when this list is non-empty, which is all the
orchestrating methods depend on. -/
def validateGroupDependencies (db : Db) (data : GroupDepInput) : List DepError :=
  (validateCourseDep db data).toList
    ++ (validateBranchDep db data).toList
    ++ (validateTeacherDep db data).toList
    ++ (validateRoomDep db data).toList

/-- Class `UpdateGroupDto` (`PartialType(CreateGroupDto)`): every field
optional; an absent field is `none`. -/
structure UpdateGroupDto where
  name : Option String
  courseId : Option Nat
  roomId : Option Nat
  teacherId : Option Nat
  status : Option GroupStatus
  days : Option (List DayOfWeek)
  start_time : Option String
  start_date : Option String
  end_date : Option String
  branchId : Option Nat
  deriving DecidableEq

/-- The candidate state `{...existingGroup, ...data}` that `update` feeds
to `validateGroupDependencies` and `checkScheduleConflicts`: each field of
the partial input, when present, overrides the loaded group's value. -/
def mergeGroup (existing : Group) (data : UpdateGroupDto) : CreateGroupDto :=
  { name := data.name.getD existing.name
    courseId := data.courseId.getD existing.courseId
    roomId := match data.roomId with | some r => some r | none => existing.roomId
    teacherId := match data.teacherId with | some t => some t | none => existing.teacherId
    status := some (data.status.getD existing.status)
    days := data.days.getD existing.days
    start_time := match data.start_time with | some t => some t | none => existing.start_time
    start_date := match data.start_date with | some d => some d | none => existing.start_date
    end_date := match data.end_date with | some d => some d | none => existing.end_date
    branchId := data.branchId.getD existing.branchId }

/-- Projection of a (merged) `CreateGroupDto` onto the fields
`validateGroupDependencies` reads. -/
def depInputOf (c : CreateGroupDto) : GroupDepInput :=
  { courseId := some c.courseId
    branchId := some c.branchId
    teacherId := c.teacherId
    roomId := c.roomId }

/-- Guard of the dependency re-validation in `update`:
`if (data.courseId || data.branchId || data.teacherId || data.roomId)`
over the raw partial input (JS truthiness). -/
def updateDepGuard (data : UpdateGroupDto) : Bool :=
  truthyId data.courseId || truthyId data.branchId
    || truthyId data.teacherId || truthyId data.roomId

/-- JavaScript truthiness of an optional string: `undefined` and the empty
string are falsy. -/
def truthyStr (o : Option String) : Bool :=
  match o with
  | none => false
  | some s => s != ""

/-- Guard of the conflict re-check in `update`:
`if (data.teacherId !== undefined || data.roomId !== undefined ||
data.days || data.start_time)` — presence for the two ids, truthiness for
the array and the string (a present array is always truthy). -/
def updateConflictGuard (data : UpdateGroupDto) : Bool :=
  data.teacherId.isSome || data.roomId.isSome
    || data.days.isSome || truthyStr data.start_time

/-- The row written by `prisma.group.update`: the fields present in the
partial input overwrite the stored row. -/
def applyGroupUpdate (g : Group) (data : UpdateGroupDto) : Group :=
  { id := g.id
    name := data.name.getD g.name
    courseId := data.courseId.getD g.courseId
    roomId := match data.roomId with | some r => some r | none => g.roomId
    teacherId := match data.teacherId with | some t => some t | none => g.teacherId
    status := data.status.getD g.status
    days := data.days.getD g.days
    start_time := match data.start_time with | some t => some t | none => g.start_time
    start_date := match data.start_date with | some d => some d | none => g.start_date
    end_date := match data.end_date with | some d => some d | none => g.end_date
    branchId := data.branchId.getD g.branchId }

/-- Outcomes of `GroupsService.update`. -/
inductive UpdateOutcome
  | notFoundError
  | validationError (e : DepError)
  | scheduleConflict (e : ConflictError)
  | updated (g : Group)
  deriving DecidableEq

/-- Method `update` of `GroupsService`: load the group (NotFound when
absent), re-validate dependencies over the merged candidate when any of
the four dependency ids is truthy in the partial input, re-check schedule
conflicts with `excludeGroupId = id` when a scheduling field is part of
the change set, then persist. -/
def groupsUpdate (db : Db) (id : Nat) (data : UpdateGroupDto) : UpdateOutcome :=
  match db.groups.find? (fun g => decide (g.id = id)) with
  | none => .notFoundError
  | some existing =>
    let merged := mergeGroup existing data
    let depErrors :=
      if updateDepGuard data then validateGroupDependencies db (depInputOf merged)
      else []
    match depErrors with
    | e :: _ => .validationError e
    | [] =>
      if updateConflictGuard data then
        match checkScheduleConflicts db.groups merged (some id) with
        | .error ce => .scheduleConflict ce
        | .ok _ => .updated (applyGroupUpdate existing data)
      else .updated (applyGroupUpdate existing data)

/-- Outcomes of the deletion methods. -/
inductive RemoveOutcome
  | notFoundError
  | deletionBlocked (count : Nat)
  | deleted
  deriving DecidableEq

/-- Method `remove` of `GroupsService`: NotFound when the group is absent,
`ConflictException` when any `student_group` row references it (the count
is interpolated into the message), deletion otherwise.  The pair carries
the outcome and the resulting `groups` table. -/
def groupsRemove (db : Db) (id : Nat) : RemoveOutcome × List Group :=
  match db.groups.find? (fun g => decide (g.id = id)) with
  | none => (.notFoundError, db.groups)
  | some _ =>
    let studentCount := db.studentGroups.countP (fun sg => decide (sg.groupId = id))
    if studentCount > 0 then (.deletionBlocked studentCount, db.groups)
    else (.deleted, db.groups.filter (fun g => !decide (g.id = id)))

/-- Prisma filter `status: { in: ['PLANNED', 'ONGOING'] }`. -/
def isActiveStatus (s : GroupStatus) : Bool :=
  decide (s = GroupStatus.PLANNED) || decide (s = GroupStatus.ONGOING)

/-- Method `remove` of `RoomsService`: NotFound when the room is absent,
`ConflictException` when the room has groups with status `PLANNED` or
`ONGOING`, deletion otherwise. -/
def roomsRemove (db : Db) (id : Nat) : RemoveOutcome × List Room :=
  match db.rooms.find? (fun r => decide (r.id = id)) with
  | none => (.notFoundError, db.rooms)
  | some _ =>
    let activeGroups := db.groups.countP (fun g =>
      decide (g.roomId = some id) && isActiveStatus g.status)
    if activeGroups > 0 then (.deletionBlocked activeGroups, db.rooms)
    else (.deleted, db.rooms.filter (fun r => !decide (r.id = id)))

/-- Class `UpdateRoomDto` (all fields optional). -/
structure UpdateRoomDto where
  branchId : Option Nat
  name : Option String
  capacity : Option Nat
  deriving DecidableEq

/-- Outcomes of `RoomsService.update`. -/
inductive RoomUpdateOutcome
  | notFoundError
  | branchError (e : DepError)
  | duplicateName (name : String)
  | updated (r : Room)
  deriving DecidableEq

/-- Method `validateBranch` shared by the rooms and students services:
the branch must exist and be `ACTIVE`. -/
def validateBranch (db : Db) (branchId : Nat) : Option DepError :=
  match db.branches.find? (fun b => decide (b.id = branchId)) with
  | none => some (.branchNotFound branchId)
  | some branch =>
    if branch.status ≠ BranchStatus.ACTIVE then some (.branchNotActive branchId)
    else none

/-- The `where` object of the duplicate-name `findFirst` in
`RoomsService.update`: `{ branchId: data.branchId, name: data.name,
id: { not: id } }`.  When the partial input carries no `branchId` the key
holds `undefined` and Prisma drops the branch filter entirely, so the
name search then ranges over every branch. -/
def dupRoomNameWhere (id : Nat) (dtoBranchId : Option Nat) (nm : String)
    (r : Room) : Bool :=
  (match dtoBranchId with
   | none => true
   | some b => decide (r.branchId = b))
    && decide (r.name = nm) && decide (r.id ≠ id)

/-- The row written by `prisma.room.update`. -/
def applyRoomUpdate (r : Room) (data : UpdateRoomDto) : Room :=
  { id := r.id
    branchId := data.branchId.getD r.branchId
    name := data.name.getD r.name
    capacity := data.capacity.getD r.capacity }

/-- Method `update` of `RoomsService`: load the room (NotFound when
absent), validate the branch when `data.branchId` is truthy, run the
duplicate-name check when `data.name` is truthy, then persist. -/
def roomsUpdate (db : Db) (id : Nat) (data : UpdateRoomDto) : RoomUpdateOutcome :=
  match db.rooms.find? (fun r => decide (r.id = id)) with
  | none => .notFoundError
  | some room =>
    let branchErr :=
      match data.branchId with
      | some b => if b ≠ 0 then validateBranch db b else none
      | none => none
    match branchErr with
    | some e => .branchError e
    | none =>
      match data.name with
      | some nm =>
        if nm ≠ "" then
          match db.rooms.find? (dupRoomNameWhere id data.branchId nm) with
          | some _ => .duplicateName nm
          | none => .updated (applyRoomUpdate room data)
        else .updated (applyRoomUpdate room data)
      | none => .updated (applyRoomUpdate room data)

/-- Class `EnrollStudentDto`. -/
structure EnrollStudentDto where
  groupId : Nat
  studentId : String
  branchId : Nat
  deriving DecidableEq

/-- Outcomes of `StudentsService.enrollStudent`. -/
inductive EnrollOutcome
  | studentNotFound (id : String)
  | groupNotFound (id : Nat)
  | branchMismatch
  | alreadyEnrolled
  | enrolled (row : StudentGroup)
  deriving DecidableEq

/-- The composite-unique-key lookup
`where: { groupId_studentId: { groupId, studentId } }`. -/
def sgKey (groupId : Nat) (studentId : String) (sg : StudentGroup) : Bool :=
  decide (sg.groupId = groupId ∧ sg.studentId = studentId)

/-- A fresh `SERIAL` id for an inserted `student_group` row.  The database
assigns the value from its sequence; any value absent from the live rows
is faithful for the observable claims, and one above the maximum is used
to keep the model executable. -/
def freshStudentGroupId (rows : List StudentGroup) : Nat :=
  (rows.map (fun sg => sg.id)).foldr Nat.max 0 + 1

/-- Method `enrollStudent` of `StudentsService`: student lookup (NotFound),
group lookup (NotFound), branch agreement
(`group.branchId !== data.branchId || student.branchId !== data.branchId`
is a `BadRequestException`), composite-key uniqueness (Conflict), then one
row inserted.  The pair carries the outcome and the resulting
`student_group` table. -/
def enrollStudent (db : Db) (data : EnrollStudentDto) :
    EnrollOutcome × List StudentGroup :=
  match db.students.find? (fun s => decide (s.id = data.studentId)) with
  | none => (.studentNotFound data.studentId, db.studentGroups)
  | some student =>
    match db.groups.find? (fun g => decide (g.id = data.groupId)) with
    | none => (.groupNotFound data.groupId, db.studentGroups)
    | some group =>
      if group.branchId ≠ data.branchId ∨ student.branchId ≠ data.branchId then
        (.branchMismatch, db.studentGroups)
      else
        match db.studentGroups.find? (sgKey data.groupId data.studentId) with
        | some _ => (.alreadyEnrolled, db.studentGroups)
        | none =>
          let row : StudentGroup :=
            { id := freshStudentGroupId db.studentGroups
              groupId := data.groupId
              studentId := data.studentId
              branchId := data.branchId }
          (.enrolled row, db.studentGroups ++ [row])

/-- Outcomes of `StudentsService.unenrollStudent`. -/
inductive UnenrollOutcome
  | notFoundError
  | unenrolled
  deriving DecidableEq

/-- Method `unenrollStudent` of `StudentsService`: the composite-key
lookup fails NotFound when no row exists, and otherwise
`prisma.studentGroup.delete` removes the row carrying that unique key. -/
def unenrollStudent (rows : List StudentGroup) (groupId : Nat)
    (studentId : String) : UnenrollOutcome × List StudentGroup :=
  match rows.find? (sgKey groupId studentId) with
  | none => (.notFoundError, rows)
  | some _ => (.unenrolled, rows.filter (fun sg => !sgKey groupId studentId sg))

/-- The fixed business-hours slot list of `getAvailableTimeSlots`. -/
def timeSlots : List String :=
  ["08:00:00", "09:00:00", "10:00:00", "11:00:00", "12:00:00",
   "13:00:00", "14:00:00", "15:00:00", "16:00:00", "17:00:00", "18:00:00"]

/-- Rendering `day.toString()` of the enum values. -/
def dayToString (d : DayOfWeek) : String :=
  match d with
  | .MON => "MON" | .TUE => "TUE" | .WED => "WED" | .THU => "THU"
  | .FRI => "FRI" | .SAT => "SAT" | .SUN => "SUN"

/-- One `{day, slots}` entry of the `availableTimeSlots` payload. -/
structure DaySlots where
  day : String
  slots : List String
  deriving DecidableEq

/-- One entry of the `conflictingGroups` payload of `checkAvailability`. -/
structure ConflictingGroupInfo where
  id : Nat
  name : String
  days : List DayOfWeek
  time : String
  deriving DecidableEq

/-- Class `RoomAvailabilityDto`. -/
structure RoomAvailabilityDto where
  roomId : Nat
  roomName : String
  isAvailable : Bool
  conflictingGroups : List ConflictingGroupInfo
  availableTimeSlots : Option (List DaySlots)
  deriving DecidableEq

/-- The `NotFoundException` of `checkAvailability`. -/
inductive AvailabilityError
  | roomNotFound (id : Nat)
  deriving DecidableEq

/-- Occupancy count of `getAvailableTimeSlots` for one `(day, slot)` pair:
groups of the room whose `days` has the day, whose `start_time` equals the
slot, with status `PLANNED` or `ONGOING` (no exclusion id here). -/
def slotOccupancy (groups : List Group) (roomId : Nat) (day : DayOfWeek)
    (slot : String) : Nat :=
  groups.countP (fun g =>
    decide (g.roomId = some roomId)
      && g.days.contains day
      && decide (g.start_time = some slot)
      && isActiveStatus g.status)

/-- Method `getAvailableTimeSlots` of `RoomsService`: for each requested
day, the fixed slots whose occupancy count is zero. -/
def getAvailableTimeSlots (groups : List Group) (roomId : Nat)
    (days : List DayOfWeek) : List DaySlots :=
  days.map (fun day =>
    { day := dayToString day
      slots := timeSlots.filter (fun slot =>
        slotOccupancy groups roomId day slot = 0) })

/-- The `where` object of the `findMany` in `checkAvailability`: room,
`hasSome` days, exact time, status in `{PLANNED, ONGOING}`, optional
truthy exclusion. -/
def availabilityWhere (roomId : Nat) (days : List DayOfWeek)
    (startTime : String) (excludeGroupId : Option Nat) (g : Group) : Bool :=
  decide (g.roomId = some roomId)
    && daysHasSome g.days days
    && decide (g.start_time = some startTime)
    && isActiveStatus g.status
    && excludeFilter excludeGroupId g

/-- Method `checkAvailability` of `RoomsService`: room lookup (NotFound),
conflicting-group query, `isAvailable` as emptiness of the result, and the
alternative slots computed only when unavailable. -/
def checkAvailability (db : Db) (roomId : Nat) (days : List DayOfWeek)
    (startTime : String) (excludeGroupId : Option Nat) :
    Except AvailabilityError RoomAvailabilityDto :=
  match db.rooms.find? (fun r => decide (r.id = roomId)) with
  | none => .error (.roomNotFound roomId)
  | some room =>
    let conflictingGroups :=
      db.groups.filter (availabilityWhere roomId days startTime excludeGroupId)
    .ok { roomId := room.id
          roomName := room.name
          isAvailable := decide (conflictingGroups.length = 0)
          conflictingGroups := conflictingGroups.map (fun g =>
            { id := g.id, name := g.name, days := g.days
              time := renderTime g.start_time })
          availableTimeSlots :=
            if conflictingGroups.length = 0 then none
            else some (getAvailableTimeSlots db.groups roomId days) }

/-! ### Concrete sample data used by the witness theorems -/

/-- Sample stored group: teacher 3 and room 7 on MON and WED at 09:00. -/
def c1Group : Group :=
  ⟨1, "G1", 100, some 7, some 3, .PLANNED, [.MON, .WED],
    some "09:00:00", none, none, 1⟩

/-- Sample candidate sharing teacher 3, room 7, WED and the start time. -/
def c1Cand : CreateGroupDto :=
  ⟨"G2", 100, some 7, some 3, none, [.WED, .FRI],
    some "09:00:00", none, none, 1⟩

/-- Sample stored group for the aggregate-error scenario. -/
def c2Group : Group :=
  ⟨2, "B1", 100, none, some 4, .PLANNED, [.TUE],
    some "10:00:00", none, none, 1⟩

/-- Sample candidate conflicting with `c2Group` on the teacher dimension. -/
def c2Cand : CreateGroupDto :=
  ⟨"B2", 100, none, some 4, none, [.TUE],
    some "10:00:00", none, none, 1⟩

/-- Sample stored group for the short-circuit scenario. -/
def c3Group : Group :=
  ⟨3, "C1", 100, some 7, some 3, .PLANNED, [.MON],
    some "09:00:00", none, none, 1⟩

/-- Sample candidate with an absent start time. -/
def c3Cand : CreateGroupDto :=
  ⟨"C2", 100, some 7, some 3, none, [.MON], none, none, none, 1⟩

/-- Sample group being updated in place. -/
def c4g5 : Group :=
  ⟨5, "D5", 100, none, some 3, .PLANNED, [.MON],
    some "09:00:00", none, none, 1⟩

/-- Sample sibling group of the same teacher, day and time. -/
def c4g6 : Group :=
  ⟨6, "D6", 100, none, some 3, .PLANNED, [.MON],
    some "09:00:00", none, none, 1⟩

/-- Sample groups table holding both. -/
def c4Db : List Group := [c4g5, c4g6]

/-- The merged candidate of an in-place update of `c4g5` that leaves every
scheduling field unchanged. -/
def c4Cand : CreateGroupDto :=
  ⟨"D5", 100, none, some 3, some .PLANNED, [.MON],
    some "09:00:00", none, none, 1⟩

/-- Sample group whose course has since been set to `DRAFT`. -/
def c5Group : Group :=
  ⟨5, "E5", 10, none, some 20, .PLANNED, [.MON],
    some "09:00:00", none, none, 1⟩

/-- Sample store: active branch 1, course 10 in `DRAFT` status, two
active teachers, and `c5Group` referencing course 10 and teacher 20. -/
def c5Db : Db :=
  ⟨[⟨1, .ACTIVE⟩], [⟨10, .DRAFT, 1⟩], [⟨20, .ACTIVE, 1⟩, ⟨21, .ACTIVE, 1⟩],
    [], [], [c5Group], []⟩

/-- Partial input changing only the teacher. -/
def c5Dto : UpdateGroupDto :=
  ⟨none, none, none, some 21, none, none, none, none, none, none⟩

/-- Partial input changing only the room (to a missing room 30). -/
def c5DtoRoom : UpdateGroupDto :=
  ⟨none, none, some 30, none, none, none, none, none, none, none⟩

/-- Sample room named Lab in branch 1. -/
def c6RoomLab : Room := ⟨1, 1, "Lab", 10⟩

/-- Sample room in branch 2 about to be renamed. -/
def c6RoomR2 : Room := ⟨2, 2, "R2", 10⟩

/-- Sample store with the two rooms in different branches. -/
def c6Db : Db :=
  ⟨[⟨1, .ACTIVE⟩, ⟨2, .ACTIVE⟩], [], [], [c6RoomLab, c6RoomR2], [], [], []⟩

/-- Name-only update of room 2 to the name held in the other branch. -/
def c6Dto : UpdateRoomDto := ⟨none, some "Lab", none⟩

/-- Sample student in branch 1. -/
def c7Student : Student := ⟨"s1", "Alice", 1⟩

/-- Sample group in branch 1 open for enrollment. -/
def c7Group : Group :=
  ⟨9, "F9", 100, none, none, .PLANNED, [.MON], some "09:00:00", none, none, 1⟩

/-- Sample enrollment row for the pair. -/
def c7Row : StudentGroup := ⟨1, 9, "s1", 1⟩

/-- Sample store where the student is already enrolled in the group. -/
def c7Db : Db :=
  ⟨[⟨1, .ACTIVE⟩], [], [], [], [c7Student], [c7Group], [c7Row]⟩

/-- The enrollment request for the same pair. -/
def c7Dto : EnrollStudentDto := ⟨9, "s1", 1⟩

/-- Sample completed group occupying room 7. -/
def c8Group : Group :=
  ⟨9, "H9", 100, some 7, none, .COMPLETED, [.MON], none, none, none, 1⟩

/-- Sample store: room 7 hosts only the completed group, which also has
one enrolled student. -/
def c8Db : Db :=
  ⟨[], [], [], [⟨7, 1, "R", 5⟩], [], [c8Group], [⟨1, 9, "s1", 1⟩]⟩

/-- Sample room for the availability scenario. -/
def c9Room : Room := ⟨7, 1, "R7", 30⟩

/-- Sample planned group holding the room on MON at 10:00. -/
def c9Group : Group :=
  ⟨11, "I1", 100, some 7, none, .PLANNED, [.MON], some "10:00:00", none, none, 1⟩

/-- Sample store for the availability scenario. -/
def c9Db : Db := ⟨[], [], [], [c9Room], [], [c9Group], []⟩

/-- The payload `checkAvailability` returns for MON 10:00 on that store. -/
def c9Dto : RoomAvailabilityDto :=
  ⟨7, "R7", false, [⟨11, "I1", [.MON], "10:00:00"⟩],
    some [⟨"MON", ["08:00:00", "09:00:00", "11:00:00", "12:00:00",
      "13:00:00", "14:00:00", "15:00:00", "16:00:00", "17:00:00",
      "18:00:00"]⟩]⟩

/-- Sample completed group sharing teacher 3, MON and 09:00. -/
def c10Group : Group :=
  ⟨12, "J1", 100, some 7, some 3, .COMPLETED, [.MON],
    some "09:00:00", none, none, 1⟩

/-- Sample candidate clashing with the completed group on the teacher
dimension. -/
def c10Cand : CreateGroupDto :=
  ⟨"J2", 100, none, some 3, none, [.MON], some "09:00:00", none, none, 1⟩

/-! ### Helper lemmas -/

lemma filterMap_ite_eq_map {α β : Type} (P : α → Prop) [DecidablePred P]
    (f : α → β) (l : List α) (h : ∀ a ∈ l, P a) :
    (l.filterMap fun a => if P a then some (f a) else none) = l.map f := by
  induction l with
  | nil => rfl
  | cons a t ih =>
    have ha : P a := h a (by simp)
    simp only [List.filterMap_cons, if_pos ha, List.map_cons]
    rw [ih (fun x hx => h x (by simp [hx]))]

lemma conflictDaysOf_length_pos {c : CreateGroupDto} {g : Group}
    (h : daysHasSome g.days c.days = true) : 0 < (conflictDaysOf c g).length := by
  unfold daysHasSome at h
  unfold conflictDaysOf
  rw [List.length_pos]
  intro hnil
  rw [List.filter_eq_nil_iff] at hnil
  rw [List.any_eq_true] at h
  obtain ⟨d, hd, hcon⟩ := h
  exact hnil d hd hcon

lemma pushConflicts_eq_map (ctype : ConflictType) (c : CreateGroupDto)
    (ms : List Group) (h : ∀ g ∈ ms, daysHasSome g.days c.days = true) :
    pushConflicts ctype c ms = ms.map (mkConflictRecord ctype c) := by
  unfold pushConflicts
  exact filterMap_ite_eq_map _ _ _ (fun g hg => conflictDaysOf_length_pos (h g hg))

lemma mem_pushConflicts {r : GroupScheduleConflictDto} {ctype : ConflictType}
    {c : CreateGroupDto} {ms : List Group} (h : r ∈ pushConflicts ctype c ms) :
    ∃ g ∈ ms, r = mkConflictRecord ctype c g := by
  unfold pushConflicts at h
  rw [List.mem_filterMap] at h
  obtain ⟨g, hg, hfg⟩ := h
  refine ⟨g, hg, ?_⟩
  by_cases hc : 0 < (conflictDaysOf c g).length
  · rw [if_pos hc] at hfg
    exact (Option.some_injective _ hfg).symm
  · rw [if_neg hc] at hfg
    exact absurd hfg (by simp)

lemma pushConflicts_mem {ctype : ConflictType} {c : CreateGroupDto}
    {ms : List Group} {g : Group} (hg : g ∈ ms)
    (hd : daysHasSome g.days c.days = true) :
    mkConflictRecord ctype c g ∈ pushConflicts ctype c ms := by
  unfold pushConflicts
  rw [List.mem_filterMap]
  exact ⟨g, hg, by rw [if_pos (conflictDaysOf_length_pos hd)]⟩

lemma excludeFilter_eq_ne {ex : Option Nat} {g : Group} (hid : 0 < g.id) :
    excludeFilter ex g = decide (ex ≠ some g.id) := by
  cases ex with
  | none => simp [excludeFilter]
  | some e =>
    by_cases he : e = 0
    · subst he
      have hne : (0 : Nat) ≠ g.id := fun h => (Nat.pos_iff_ne_zero.mp hid) h.symm
      simp [excludeFilter, hne]
    · simp only [excludeFilter, if_neg he]
      by_cases hg : g.id = e
      · subst hg; simp
      · have hg' : e ≠ g.id := fun h => hg h.symm
        simp [hg, hg']

lemma mem_teacherConflicts {r : GroupScheduleConflictDto} {db : List Group}
    {c : CreateGroupDto} {ex : Option Nat}
    (h : r ∈ teacherConflicts db c ex) :
    ∃ t, c.teacherId = some t ∧ t ≠ 0
      ∧ ∃ g ∈ db, r = mkConflictRecord .TEACHER_CONFLICT c g
        ∧ teacherWhere c ex t g = true := by
  unfold teacherConflicts at h
  split at h
  next => exact absurd h (by simp)
  next t heq =>
    by_cases ht : t = 0
    · rw [if_pos ht] at h; exact absurd h (by simp)
    · rw [if_neg ht] at h
      obtain ⟨g, hg, hr⟩ := mem_pushConflicts h
      rw [List.mem_filter] at hg
      exact ⟨t, heq, ht, g, hg.1, hr, hg.2⟩

lemma mem_roomConflicts {r : GroupScheduleConflictDto} {db : List Group}
    {c : CreateGroupDto} {ex : Option Nat}
    (h : r ∈ roomConflicts db c ex) :
    ∃ t, c.roomId = some t ∧ t ≠ 0
      ∧ ∃ g ∈ db, r = mkConflictRecord .ROOM_CONFLICT c g
        ∧ roomWhere c ex t g = true := by
  unfold roomConflicts at h
  split at h
  next => exact absurd h (by simp)
  next t heq =>
    by_cases ht : t = 0
    · rw [if_pos ht] at h; exact absurd h (by simp)
    · rw [if_neg ht] at h
      obtain ⟨g, hg, hr⟩ := mem_pushConflicts h
      rw [List.mem_filter] at hg
      exact ⟨t, heq, ht, g, hg.1, hr, hg.2⟩

lemma error_conflicts_eq {db : List Group} {c : CreateGroupDto}
    {ex : Option Nat} {ce : ConflictError}
    (h : checkScheduleConflicts db c ex = .error ce) :
    ce.conflicts = conflictsOf db c ex := by
  simp only [checkScheduleConflicts] at h
  split at h
  · injection h with h'
    rw [← h']
  · exact absurd h (by simp)

lemma teacherConflicts_eq_spec (db : List Group) (c : CreateGroupDto)
    (ex : Option Nat) (hwf : WellFormedGroups db) :
    teacherConflicts db c ex
      = specDimension .TEACHER_CONFLICT (fun g => g.teacherId) c.teacherId
          c ex db := by
  cases hT : c.teacherId with
  | none => simp [teacherConflicts, specDimension, hT]
  | some t =>
    by_cases ht : t = 0
    · subst ht
      simp only [teacherConflicts, specDimension, hT]
      rw [if_pos trivial]
      symm
      rw [List.map_eq_nil_iff, List.filter_eq_nil_iff]
      intro g hg
      have h0 := (hwf g hg).2.1
      simp [h0]
    · have hfil : db.filter (teacherWhere c ex t)
          = db.filter (fun g =>
              decide (g.teacherId = some t) && daysHasSome g.days c.days
                && decide (g.start_time = c.start_time)
                && decide (ex ≠ some g.id)) := by
        apply List.filter_congr
        intro g hg
        unfold teacherWhere
        rw [excludeFilter_eq_ne (hwf g hg).1]
      simp only [teacherConflicts, specDimension, hT]
      rw [if_neg ht]
      rw [pushConflicts_eq_map]
      · rw [hfil]
        rfl
      · intro g hg
        rw [List.mem_filter] at hg
        have h2 := hg.2
        simp only [teacherWhere, Bool.and_eq_true] at h2
        exact h2.1.1.2

lemma roomConflicts_eq_spec (db : List Group) (c : CreateGroupDto)
    (ex : Option Nat) (hwf : WellFormedGroups db) :
    roomConflicts db c ex
      = specDimension .ROOM_CONFLICT (fun g => g.roomId) c.roomId
          c ex db := by
  cases hT : c.roomId with
  | none => simp [roomConflicts, specDimension, hT]
  | some t =>
    by_cases ht : t = 0
    · subst ht
      simp only [roomConflicts, specDimension, hT]
      rw [if_pos trivial]
      symm
      rw [List.map_eq_nil_iff, List.filter_eq_nil_iff]
      intro g hg
      have h0 := (hwf g hg).2.2
      simp [h0]
    · have hfil : db.filter (roomWhere c ex t)
          = db.filter (fun g =>
              decide (g.roomId = some t) && daysHasSome g.days c.days
                && decide (g.start_time = c.start_time)
                && decide (ex ≠ some g.id)) := by
        apply List.filter_congr
        intro g hg
        unfold roomWhere
        rw [excludeFilter_eq_ne (hwf g hg).1]
      simp only [roomConflicts, specDimension, hT]
      rw [if_neg ht]
      rw [pushConflicts_eq_map]
      · rw [hfil]
        rfl
      · intro g hg
        rw [List.mem_filter] at hg
        have h2 := hg.2
        simp only [roomWhere, Bool.and_eq_true] at h2
        exact h2.1.1.2

/-! ### Claim theorems -/

/-- C1: for every candidate with non-empty days and a present start time,
the schedule conflict checker computes exactly the record list the
specification describes: per dimension, one record for each stored group
other than `excludeGroupId` whose resource id equals the candidate's,
whose days share at least one weekday with the candidate's, and whose
start time equals the candidate's exactly, with `conflictDays` the
intersection of the candidate's days with that group's days; groups with
no resource id on a dimension never conflict there, and groups with a
different time or disjoint days yield no record. -/
theorem checkScheduleConflicts_matches_spec
    (db : List Group) (c : CreateGroupDto) (ex : Option Nat)
    (hwf : WellFormedGroups db) (_hdays : c.days ≠ [])
    (htime : c.start_time.isSome) :
    conflictsOf db c ex = specConflicts db c ex := by
  obtain ⟨t0, ht0⟩ := Option.isSome_iff_exists.mp htime
  unfold conflictsOf specConflicts
  simp only [ht0]
  rw [teacherConflicts_eq_spec db c ex hwf, roomConflicts_eq_spec db c ex hwf]

/-- C1 witness: the refinement theorem applied at a concrete store and
candidate. -/
theorem checkScheduleConflicts_matches_spec_witness :
    conflictsOf [c1Group] c1Cand none = specConflicts [c1Group] c1Cand none :=
  checkScheduleConflicts_matches_spec [c1Group] c1Cand none
    (by unfold WellFormedGroups; decide) (by decide) (by decide)

/-- C2: the checker raises its structured conflict error precisely when
the aggregate list is non-empty, the error carries the full list, and the
list is all teacher records followed by all room records in query order;
with an empty list the checker returns the empty result. -/
theorem checkScheduleConflicts_raises_iff
    (db : List Group) (c : CreateGroupDto) (ex : Option Nat) :
    (conflictsOf db c ex = [] → checkScheduleConflicts db c ex = .ok [])
    ∧ (conflictsOf db c ex ≠ [] →
        checkScheduleConflicts db c ex
          = .error { message := "Schedule conflicts detected",
                     conflicts := conflictsOf db c ex })
    ∧ ∃ tp rp, conflictsOf db c ex = tp ++ rp
        ∧ (∀ r ∈ tp, r.conflictType = .TEACHER_CONFLICT)
        ∧ (∀ r ∈ rp, r.conflictType = .ROOM_CONFLICT) := by
  refine ⟨?_, ?_, ?_⟩
  · intro h
    simp [checkScheduleConflicts, h]
  · intro h
    have hl : 0 < (conflictsOf db c ex).length := List.length_pos.mpr h
    simp only [checkScheduleConflicts]
    rw [if_pos hl]
  · cases hst : c.start_time with
    | none => exact ⟨[], [], by simp [conflictsOf, hst], by simp, by simp⟩
    | some t =>
      refine ⟨teacherConflicts db c ex, roomConflicts db c ex, ?_, ?_, ?_⟩
      · simp [conflictsOf, hst]
      · intro r hr
        obtain ⟨t', _, _, g, _, hrec, _⟩ := mem_teacherConflicts hr
        rw [hrec]
        rfl
      · intro r hr
        obtain ⟨t', _, _, g, _, hrec, _⟩ := mem_roomConflicts hr
        rw [hrec]
        rfl

/-- C2 witness: at a concrete store with one teacher clash the checker
fails with the error carrying the whole list. -/
theorem checkScheduleConflicts_raises_iff_witness :
    checkScheduleConflicts [c2Group] c2Cand none
      = .error { message := "Schedule conflicts detected",
                 conflicts := conflictsOf [c2Group] c2Cand none } :=
  (checkScheduleConflicts_raises_iff [c2Group] c2Cand none).2.1 (by decide)

/-- C3: a candidate with an empty day set or an absent start time never
yields a conflict and never raises, whatever the store and resource ids
hold. -/
theorem checkScheduleConflicts_short_circuits
    (db : List Group) (c : CreateGroupDto) (ex : Option Nat)
    (h : c.days = [] ∨ c.start_time = none) :
    checkScheduleConflicts db c ex = .ok [] := by
  have hconf : conflictsOf db c ex = [] := by
    cases h with
    | inr h => simp [conflictsOf, h]
    | inl h =>
      cases hst : c.start_time with
      | none => simp [conflictsOf, hst]
      | some t =>
        have h1 : teacherConflicts db c ex = [] := by
          unfold teacherConflicts
          split
          · rfl
          next t' heq =>
            split
            · rfl
            · have hfil : db.filter (teacherWhere c ex t') = [] := by
                rw [List.filter_eq_nil_iff]
                intro g hg
                simp [teacherWhere, daysHasSome, h]
              rw [hfil]
              rfl
        have h2 : roomConflicts db c ex = [] := by
          unfold roomConflicts
          split
          · rfl
          next t' heq =>
            split
            · rfl
            · have hfil : db.filter (roomWhere c ex t') = [] := by
                rw [List.filter_eq_nil_iff]
                intro g hg
                simp [roomWhere, daysHasSome, h]
              rw [hfil]
              rfl
        simp [conflictsOf, hst, h1, h2]
  simp [checkScheduleConflicts, hconf]

/-- C3 witness: a concrete candidate with no start time passes against a
store that would clash on every other field. -/
theorem checkScheduleConflicts_short_circuits_witness :
    checkScheduleConflicts [c3Group] c3Cand none = .ok [] :=
  checkScheduleConflicts_short_circuits [c3Group] c3Cand none (Or.inr rfl)

/-- C4: with a positive `excludeGroupId` the conflict search never returns
a record naming the excluded group, so an in-place update is never failed
by a conflict with the group itself; at the `update` level, any schedule
conflict error raised for id `id` names only other groups. -/
theorem update_never_self_conflicts :
    (∀ (db : List Group) (c : CreateGroupDto) (e : Nat), 0 < e →
      ∀ r ∈ conflictsOf db c (some e), r.conflictingGroupId ≠ e)
    ∧ (∀ (db : Db) (id : Nat) (data : UpdateGroupDto) (ce : ConflictError),
        0 < id → groupsUpdate db id data = .scheduleConflict ce →
        ∀ r ∈ ce.conflicts, r.conflictingGroupId ≠ id) := by
  have hexcl : ∀ (e : Nat) (g : Group), 0 < e →
      excludeFilter (some e) g = true → g.id ≠ e := by
    intro e g he hg
    simp only [excludeFilter] at hg
    rw [if_neg (Nat.pos_iff_ne_zero.mp he)] at hg
    exact bne_iff_ne.mp hg
  have part1 : ∀ (db : List Group) (c : CreateGroupDto) (e : Nat), 0 < e →
      ∀ r ∈ conflictsOf db c (some e), r.conflictingGroupId ≠ e := by
    intro db c e he r hr
    have hmem : r ∈ teacherConflicts db c (some e)
        ∨ r ∈ roomConflicts db c (some e) := by
      unfold conflictsOf at hr
      split at hr
      · exact absurd hr (by simp)
      · exact List.mem_append.mp hr
    cases hmem with
    | inl h =>
      obtain ⟨t, _, _, g, _, hrec, hw⟩ := mem_teacherConflicts h
      simp only [teacherWhere, Bool.and_eq_true] at hw
      have hne := hexcl e g he hw.2
      rw [hrec]
      exact hne
    | inr h =>
      obtain ⟨t, _, _, g, _, hrec, hw⟩ := mem_roomConflicts h
      simp only [roomWhere, Bool.and_eq_true] at hw
      have hne := hexcl e g he hw.2
      rw [hrec]
      exact hne
  refine ⟨part1, ?_⟩
  intro db id data ce hid hupd r hr
  simp only [groupsUpdate] at hupd
  split at hupd
  · exact absurd hupd (by simp)
  next existing hfind =>
    split at hupd
    · exact absurd hupd (by simp)
    · split at hupd
      · split at hupd
        next ce' heq =>
          injection hupd with h'
          subst h'
          have hc := error_conflicts_eq heq
          rw [hc] at hr
          exact part1 db.groups (mergeGroup existing data) id hid r hr
        next heq => exact absurd hupd (by simp)
      · exact absurd hupd (by simp)

/-- C4 witness: an in-place update of group 5 reports only the sibling
group 6, never group 5 itself. -/
theorem update_never_self_conflicts_witness :
    (mkConflictRecord .TEACHER_CONFLICT c4Cand c4g6).conflictingGroupId ≠ 5 :=
  update_never_self_conflicts.1 c4Db c4Cand 5 (by decide) _ (by decide)

/-- C5 counterexample: updating only the teacher of a group whose course
has become `DRAFT` fails the course validation, although the course is not
part of the partial input — the claim says such an update cannot fail
because of the unchanged course. -/
theorem groupsUpdate_fails_on_unchanged_course :
    groupsUpdate c5Db 5 c5Dto = .validationError (.courseNotActive 10) := by
  decide

/-- C5 (amended): dependency validations run exactly when one of the four
dependency ids is truthy in the partial input, and then over the merged
candidate state, so validations for unchanged dependencies are re-run and
can fail the update; when the guard is falsy no dependency validation
runs and no validation error is possible. -/
theorem groupsUpdate_validates_merged_state
    (db : Db) (id : Nat) (data : UpdateGroupDto) (existing : Group)
    (hfind : db.groups.find? (fun g => decide (g.id = id)) = some existing) :
    (updateDepGuard data = false →
      ∀ e, groupsUpdate db id data ≠ .validationError e)
    ∧ (updateDepGuard data = true →
        ∀ e rest,
          validateGroupDependencies db (depInputOf (mergeGroup existing data))
            = e :: rest →
          groupsUpdate db id data = .validationError e) := by
  constructor
  · intro hguard e heq
    simp only [groupsUpdate, hfind, hguard] at heq
    split at heq
    next e' tail hcons => simp at hcons
    next hnil =>
      split at heq
      · split at heq
        · exact absurd heq (by simp)
        · exact absurd heq (by simp)
      · exact absurd heq (by simp)
  · intro hguard e rest hval
    simp only [groupsUpdate, hfind, hguard]
    rw [if_pos trivial]
    rw [hval]

/-- C5 witness: a room-only update of the same group also fails on the
unchanged `DRAFT` course, by the amended theorem. -/
theorem groupsUpdate_validates_merged_state_witness :
    groupsUpdate c5Db 5 c5DtoRoom = .validationError (.courseNotActive 10) :=
  (groupsUpdate_validates_merged_state c5Db 5 c5DtoRoom c5Group (by decide)).2
    (by decide) (.courseNotActive 10) [.roomNotFound 30] (by decide)

/-- C6: evaluating the room update at the failing input: a name-only
update of room 2 (branch 2) to a name held only by room 1 (branch 1) is
rejected with the duplicate-name conflict, because the `findFirst` filter
receives `branchId: undefined` and searches every branch — contradicting
the branch-scoped uniqueness the code's own error message and the create
path implement. -/
theorem roomsUpdate_cross_branch_name_conflict :
    roomsUpdate c6Db 2 c6Dto = .duplicateName "Lab" := by
  decide

lemma find?_append_of_none {α : Type} {p : α → Bool} {l1 l2 : List α}
    (h : l1.find? p = none) : (l1 ++ l2).find? p = l2.find? p := by
  induction l1 with
  | nil => rfl
  | cons a t ih =>
    cases hpa : p a with
    | true => simp [List.find?_cons, hpa] at h
    | false =>
      simp only [List.find?_cons, hpa] at h
      simp only [List.cons_append, List.find?_cons, hpa]
      exact ih h

/-- C7: the enrollment manager's contract.  Enrollment fails NotFound on a
missing student or group, fails validation when either does not carry the
supplied branch, fails Conflict when the `(groupId, studentId)` row
already exists — so enrolling the same pair twice always fails the second
time — and otherwise inserts exactly one row for that pair.  Unenrollment
fails NotFound exactly when no row for the pair exists and otherwise
deletes exactly that row. -/
theorem enrollment_manager_contract :
    (∀ (db : Db) (d : EnrollStudentDto),
      db.students.find? (fun s => decide (s.id = d.studentId)) = none →
      enrollStudent db d = (.studentNotFound d.studentId, db.studentGroups))
    ∧ (∀ (db : Db) (d : EnrollStudentDto) (s : Student),
        db.students.find? (fun s => decide (s.id = d.studentId)) = some s →
        db.groups.find? (fun g => decide (g.id = d.groupId)) = none →
        enrollStudent db d = (.groupNotFound d.groupId, db.studentGroups))
    ∧ (∀ (db : Db) (d : EnrollStudentDto) (s : Student) (g : Group),
        db.students.find? (fun s => decide (s.id = d.studentId)) = some s →
        db.groups.find? (fun g => decide (g.id = d.groupId)) = some g →
        (g.branchId ≠ d.branchId ∨ s.branchId ≠ d.branchId) →
        enrollStudent db d = (.branchMismatch, db.studentGroups))
    ∧ (∀ (db : Db) (d : EnrollStudentDto) (s : Student) (g : Group)
        (sg : StudentGroup),
        db.students.find? (fun s => decide (s.id = d.studentId)) = some s →
        db.groups.find? (fun g => decide (g.id = d.groupId)) = some g →
        g.branchId = d.branchId → s.branchId = d.branchId →
        sg ∈ db.studentGroups → sgKey d.groupId d.studentId sg = true →
        enrollStudent db d = (.alreadyEnrolled, db.studentGroups))
    ∧ (∀ (db : Db) (d : EnrollStudentDto) (s : Student) (g : Group),
        db.students.find? (fun s => decide (s.id = d.studentId)) = some s →
        db.groups.find? (fun g => decide (g.id = d.groupId)) = some g →
        g.branchId = d.branchId → s.branchId = d.branchId →
        (∀ sg ∈ db.studentGroups, sgKey d.groupId d.studentId sg = false) →
        (enrollStudent db d).1
            = .enrolled { id := freshStudentGroupId db.studentGroups
                          groupId := d.groupId
                          studentId := d.studentId
                          branchId := d.branchId }
          ∧ (enrollStudent db d).2
            = db.studentGroups
                ++ [{ id := freshStudentGroupId db.studentGroups
                      groupId := d.groupId
                      studentId := d.studentId
                      branchId := d.branchId }]
          ∧ (enrollStudent
              { db with studentGroups := (enrollStudent db d).2 } d).1
            = .alreadyEnrolled)
    ∧ (∀ (rows : List StudentGroup) (gid : Nat) (sid : String),
        (∀ sg ∈ rows, sgKey gid sid sg = false) →
        unenrollStudent rows gid sid = (.notFoundError, rows))
    ∧ (∀ (rows : List StudentGroup) (gid : Nat) (sid : String)
        (sg0 : StudentGroup),
        sg0 ∈ rows → sgKey gid sid sg0 = true →
        rows.countP (sgKey gid sid) ≤ 1 →
        (unenrollStudent rows gid sid).1 = .unenrolled
          ∧ (unenrollStudent rows gid sid).2.length + 1 = rows.length
          ∧ (∀ x, x ∈ (unenrollStudent rows gid sid).2
              ↔ x ∈ rows ∧ sgKey gid sid x = false)) := by
  refine ⟨?_, ?_, ?_, ?_, ?_, ?_, ?_⟩
  · intro db d h
    simp [enrollStudent, h]
  · intro db d s hs hg
    simp [enrollStudent, hs, hg]
  · intro db d s g hs hg hne
    simp only [enrollStudent, hs, hg]
    rw [if_pos hne]
  · intro db d s g sg hs hg hgb hsb hmem hkey
    simp only [enrollStudent, hs, hg]
    rw [if_neg (by simp [hgb, hsb])]
    have hfound : (db.studentGroups.find? (sgKey d.groupId d.studentId)).isSome :=
      List.find?_isSome.mpr ⟨sg, hmem, hkey⟩
    cases hfind : db.studentGroups.find? (sgKey d.groupId d.studentId) with
    | none => rw [hfind] at hfound; exact absurd hfound (by simp)
    | some x => rfl
  · intro db d s g hs hg hgb hsb hnone
    have hfind : db.studentGroups.find? (sgKey d.groupId d.studentId) = none :=
      List.find?_eq_none.mpr (fun sg hm => by rw [hnone sg hm]; simp)
    have hrow : enrollStudent db d
        = (.enrolled { id := freshStudentGroupId db.studentGroups
                       groupId := d.groupId
                       studentId := d.studentId
                       branchId := d.branchId },
           db.studentGroups
             ++ [{ id := freshStudentGroupId db.studentGroups
                   groupId := d.groupId
                   studentId := d.studentId
                   branchId := d.branchId }]) := by
      simp only [enrollStudent, hs, hg, hfind]
      rw [if_neg (by simp [hgb, hsb])]
    refine ⟨by rw [hrow], by rw [hrow], ?_⟩
    rw [hrow]
    simp only [enrollStudent, hs, hg]
    rw [if_neg (by simp [hgb, hsb])]
    rw [find?_append_of_none hfind]
    simp [List.find?_cons, sgKey]
  · intro rows gid sid hnone
    have hfind : rows.find? (sgKey gid sid) = none :=
      List.find?_eq_none.mpr (fun sg hm => by rw [hnone sg hm]; simp)
    simp [unenrollStudent, hfind]
  · intro rows gid sid sg0 hmem hkey hcount
    have hfound : (rows.find? (sgKey gid sid)).isSome :=
      List.find?_isSome.mpr ⟨sg0, hmem, hkey⟩
    cases hfind : rows.find? (sgKey gid sid) with
    | none => rw [hfind] at hfound; exact absurd hfound (by simp)
    | some x =>
      have hres : unenrollStudent rows gid sid
          = (.unenrolled, rows.filter (fun sg => !sgKey gid sid sg)) := by
        simp [unenrollStudent, hfind]
      refine ⟨by rw [hres], ?_, ?_⟩
      · rw [hres]
        have hone : rows.countP (sgKey gid sid) = 1 := by
          have hpos : 0 < rows.countP (sgKey gid sid) :=
            List.countP_pos_iff.mpr ⟨sg0, hmem, hkey⟩
          omega
        have hsplit := List.length_eq_countP_add_countP (l := rows)
          (sgKey gid sid)
        have hflen : (rows.filter (fun sg => !sgKey gid sid sg)).length
            = rows.countP (fun sg => !sgKey gid sid sg) := by
          rw [List.countP_eq_length_filter]
        simp only [hflen]
        have : rows.countP (fun sg => decide (¬sgKey gid sid sg = true))
            = rows.countP (fun sg => !sgKey gid sid sg) := by
          apply List.countP_congr
          intro sg _
          cases hks : sgKey gid sid sg <;> simp [hks]
        omega
      · intro x
        rw [hres]
        simp [List.mem_filter]

/-- C7 witness: enrolling an already-enrolled pair fails with the
Conflict outcome and leaves the table unchanged. -/
theorem enrollment_manager_contract_witness :
    enrollStudent c7Db c7Dto = (.alreadyEnrolled, c7Db.studentGroups) :=
  enrollment_manager_contract.2.2.2.1 c7Db c7Dto c7Student c7Group c7Row
    (by decide) (by decide) (by decide) (by decide) (by decide) (by decide)

/-- C8: deleting a group with at least one enrollment row fails with a
Conflict and the group remains; with none it deletes the group.  Deleting
a room with at least one `PLANNED`/`ONGOING` group fails with a Conflict
and the room remains; when every group of the room is `COMPLETED` (or
there is none) the room is deleted. -/
theorem deletion_guards :
    (∀ (db : Db) (id : Nat) (g0 : Group),
      db.groups.find? (fun g => decide (g.id = id)) = some g0 →
      (∃ sg ∈ db.studentGroups, sg.groupId = id) →
      ∃ n, 0 < n ∧ groupsRemove db id = (.deletionBlocked n, db.groups))
    ∧ (∀ (db : Db) (id : Nat) (g0 : Group),
        db.groups.find? (fun g => decide (g.id = id)) = some g0 →
        (¬∃ sg ∈ db.studentGroups, sg.groupId = id) →
        (groupsRemove db id).1 = .deleted
          ∧ ∀ g, g ∈ (groupsRemove db id).2 ↔ g ∈ db.groups ∧ g.id ≠ id)
    ∧ (∀ (db : Db) (id : Nat) (r0 : Room),
        db.rooms.find? (fun r => decide (r.id = id)) = some r0 →
        (∃ g ∈ db.groups, g.roomId = some id
          ∧ (g.status = .PLANNED ∨ g.status = .ONGOING)) →
        ∃ n, 0 < n ∧ roomsRemove db id = (.deletionBlocked n, db.rooms))
    ∧ (∀ (db : Db) (id : Nat) (r0 : Room),
        db.rooms.find? (fun r => decide (r.id = id)) = some r0 →
        (¬∃ g ∈ db.groups, g.roomId = some id
          ∧ (g.status = .PLANNED ∨ g.status = .ONGOING)) →
        (roomsRemove db id).1 = .deleted
          ∧ ∀ r, r ∈ (roomsRemove db id).2 ↔ r ∈ db.rooms ∧ r.id ≠ id) := by
  refine ⟨?_, ?_, ?_, ?_⟩
  · intro db id g0 hfind hex
    obtain ⟨sg, hmem, hsg⟩ := hex
    have hpos : 0 < db.studentGroups.countP (fun sg => decide (sg.groupId = id)) :=
      List.countP_pos_iff.mpr ⟨sg, hmem, by simp [hsg]⟩
    refine ⟨db.studentGroups.countP (fun sg => decide (sg.groupId = id)), hpos, ?_⟩
    simp only [groupsRemove, hfind]
    rw [if_pos hpos]
  · intro db id g0 hfind hnone
    have hzero : db.studentGroups.countP (fun sg => decide (sg.groupId = id)) = 0 := by
      rw [List.countP_eq_zero]
      intro sg hmem hcon
      exact hnone ⟨sg, hmem, by simpa using hcon⟩
    have hres : groupsRemove db id
        = (.deleted, db.groups.filter (fun g => !decide (g.id = id))) := by
      simp only [groupsRemove, hfind]
      rw [hzero]
      simp
    refine ⟨by rw [hres], ?_⟩
    intro g
    rw [hres]
    simp [List.mem_filter]
  · intro db id r0 hfind hex
    obtain ⟨g, hmem, hg1, hg2⟩ := hex
    have hpos : 0 < db.groups.countP (fun g =>
        decide (g.roomId = some id) && isActiveStatus g.status) := by
      apply List.countP_pos_iff.mpr
      refine ⟨g, hmem, ?_⟩
      simp only [Bool.and_eq_true, decide_eq_true_eq, isActiveStatus,
        Bool.or_eq_true]
      exact ⟨hg1, hg2.imp (fun h => by simp [h]) (fun h => by simp [h])⟩
    refine ⟨db.groups.countP (fun g =>
      decide (g.roomId = some id) && isActiveStatus g.status), hpos, ?_⟩
    simp only [roomsRemove, hfind]
    rw [if_pos hpos]
  · intro db id r0 hfind hnone
    have hzero : db.groups.countP (fun g =>
        decide (g.roomId = some id) && isActiveStatus g.status) = 0 := by
      rw [List.countP_eq_zero]
      intro g hmem hcon
      simp only [Bool.and_eq_true, decide_eq_true_eq, isActiveStatus,
        Bool.or_eq_true] at hcon
      refine hnone ⟨g, hmem, hcon.1, ?_⟩
      exact hcon.2.imp (fun h => by simpa using h) (fun h => by simpa using h)
    have hres : roomsRemove db id
        = (.deleted, db.rooms.filter (fun r => !decide (r.id = id))) := by
      simp only [roomsRemove, hfind]
      rw [hzero]
      simp
    refine ⟨by rw [hres], ?_⟩
    intro r
    rw [hres]
    simp [List.mem_filter]

/-- C8 witness: room 7's only group is `COMPLETED`, so deleting the room
succeeds. -/
theorem deletion_guards_witness :
    (roomsRemove c8Db 7).1 = .deleted :=
  (deletion_guards.2.2.2 c8Db 7 ⟨7, 1, "R", 5⟩ (by decide) (by decide)).1

/-- C9: on an existing room, `checkAvailability` reports available exactly
when no `PLANNED`/`ONGOING` group other than `excludeGroupId` holds that
room with a shared weekday and that exact start time; when unavailable the
alternative slots list, per requested day, exactly the fixed hourly slots
no `PLANNED`/`ONGOING` group of the room occupies on that day. -/
theorem checkAvailability_contract
    (db : Db) (roomId : Nat) (days : List DayOfWeek) (startTime : String)
    (ex : Option Nat) (dto : RoomAvailabilityDto)
    (hwf : ∀ g ∈ db.groups, 0 < g.id)
    (hok : checkAvailability db roomId days startTime ex = .ok dto) :
    (dto.isAvailable = true ↔
      ¬∃ g ∈ db.groups, g.roomId = some roomId
        ∧ (∃ d ∈ days, d ∈ g.days)
        ∧ g.start_time = some startTime
        ∧ (g.status = .PLANNED ∨ g.status = .ONGOING)
        ∧ ex ≠ some g.id)
    ∧ (dto.isAvailable = false →
        dto.availableTimeSlots
          = some (days.map (fun day =>
              { day := dayToString day
                slots := timeSlots.filter (fun slot =>
                  decide (¬∃ g ∈ db.groups, g.roomId = some roomId
                    ∧ day ∈ g.days ∧ g.start_time = some slot
                    ∧ (g.status = .PLANNED ∨ g.status = .ONGOING))) }))) := by
  have hpred : ∀ g ∈ db.groups,
      (availabilityWhere roomId days startTime ex g = true
        ↔ (g.roomId = some roomId ∧ (∃ d ∈ days, d ∈ g.days)
            ∧ g.start_time = some startTime
            ∧ (g.status = .PLANNED ∨ g.status = .ONGOING)
            ∧ ex ≠ some g.id)) := by
    intro g hg
    simp only [availabilityWhere, excludeFilter_eq_ne (hwf g hg),
      Bool.and_eq_true, decide_eq_true_eq, daysHasSome, List.any_eq_true,
      isActiveStatus, Bool.or_eq_true]
    constructor
    · intro ⟨⟨⟨⟨h1, h2⟩, h3⟩, h4⟩, h5⟩
      refine ⟨h1, ?_, h3, h4, h5⟩
      obtain ⟨d, hd, hc⟩ := h2
      exact ⟨d, hd, by simpa using hc⟩
    · intro ⟨h1, h2, h3, h4, h5⟩
      refine ⟨⟨⟨⟨h1, ?_⟩, h3⟩, h4⟩, h5⟩
      obtain ⟨d, hd, hc⟩ := h2
      exact ⟨d, hd, by simpa using hc⟩
  cases hroom : db.rooms.find? (fun r => decide (r.id = roomId)) with
  | none =>
    rw [checkAvailability, hroom] at hok
    exact absurd hok (by simp)
  | some room =>
    simp only [checkAvailability, hroom] at hok
    injection hok with h'
    subst h'
    constructor
    · show decide ((db.groups.filter
          (availabilityWhere roomId days startTime ex)).length = 0) = true ↔ _
      rw [decide_eq_true_eq, List.length_eq_zero, List.filter_eq_nil_iff]
      constructor
      · intro hall hcontra
        obtain ⟨g, hg, hp⟩ := hcontra
        exact hall g hg ((hpred g hg).mpr hp)
      · intro hne g hg hp
        exact hne ⟨g, hg, (hpred g hg).mp hp⟩
    · intro hfalse
      have hlen : ¬((db.groups.filter
          (availabilityWhere roomId days startTime ex)).length = 0) := by
        intro h0
        simp only [h0] at hfalse
        exact absurd hfalse (by simp)
      show (if _ then none else some _) = _
      rw [if_neg hlen]
      congr 1
      unfold getAvailableTimeSlots
      apply List.map_congr_left
      intro day _
      congr 1
      apply List.filter_congr
      intro slot _
      rw [decide_eq_decide]
      unfold slotOccupancy
      rw [List.countP_eq_zero]
      constructor
      · intro hall hcontra
        obtain ⟨g, hg, h1, h2, h3, h4⟩ := hcontra
        apply hall g hg
        simp only [Bool.and_eq_true, decide_eq_true_eq, isActiveStatus,
          Bool.or_eq_true]
        exact ⟨⟨⟨h1, by simpa using h2⟩, h3⟩, h4⟩
      · intro hne g hg hp
        simp only [Bool.and_eq_true, decide_eq_true_eq, isActiveStatus,
          Bool.or_eq_true] at hp
        exact hne ⟨g, hg, hp.1.1.1, by simpa using hp.1.1.2, hp.1.2, hp.2⟩

/-- C9 witness: on the sample store, MON 10:00 is reported unavailable and
the alternative slots are exactly the unoccupied hourly slots. -/
theorem checkAvailability_contract_witness :
    (c9Dto.isAvailable = true ↔
      ¬∃ g ∈ c9Db.groups, g.roomId = some 7
        ∧ (∃ d ∈ [DayOfWeek.MON], d ∈ g.days)
        ∧ g.start_time = some "10:00:00"
        ∧ (g.status = .PLANNED ∨ g.status = .ONGOING)
        ∧ (none : Option Nat) ≠ some g.id)
    ∧ (c9Dto.isAvailable = false →
        c9Dto.availableTimeSlots
          = some ([DayOfWeek.MON].map (fun day =>
              { day := dayToString day
                slots := timeSlots.filter (fun slot =>
                  decide (¬∃ g ∈ c9Db.groups, g.roomId = some 7
                    ∧ day ∈ g.days ∧ g.start_time = some slot
                    ∧ (g.status = .PLANNED ∨ g.status = .ONGOING))) }))) :=
  checkAvailability_contract c9Db 7 [.MON] "10:00:00" none c9Dto
    (by decide) (by rfl)

/-- C10: the schedule conflict checker applies no status filter — a
`COMPLETED` group matching on teacher (or room), a shared weekday and the
exact start time is still reported and makes the checker raise — whereas
`checkAvailability` counts only `PLANNED` and `ONGOING` groups, so every
group it reports as occupying the room is in one of those two statuses. -/
theorem checker_ignores_status :
    (∀ (db : List Group) (c : CreateGroupDto) (ex : Option Nat)
        (g : Group) (t : Nat),
      g ∈ db → g.status = .COMPLETED →
      c.teacherId = some t → t ≠ 0 → g.teacherId = some t →
      daysHasSome g.days c.days = true →
      g.start_time = c.start_time → c.start_time.isSome →
      excludeFilter ex g = true →
      ∃ ce, checkScheduleConflicts db c ex = .error ce
        ∧ ∃ r ∈ ce.conflicts, r.conflictingGroupId = g.id
          ∧ r.conflictType = .TEACHER_CONFLICT)
    ∧ (∀ (db : List Group) (c : CreateGroupDto) (ex : Option Nat)
        (g : Group) (t : Nat),
      g ∈ db → g.status = .COMPLETED →
      c.roomId = some t → t ≠ 0 → g.roomId = some t →
      daysHasSome g.days c.days = true →
      g.start_time = c.start_time → c.start_time.isSome →
      excludeFilter ex g = true →
      ∃ ce, checkScheduleConflicts db c ex = .error ce
        ∧ ∃ r ∈ ce.conflicts, r.conflictingGroupId = g.id
          ∧ r.conflictType = .ROOM_CONFLICT)
    ∧ (∀ (db : Db) (roomId : Nat) (days : List DayOfWeek)
        (startTime : String) (ex : Option Nat) (dto : RoomAvailabilityDto),
        checkAvailability db roomId days startTime ex = .ok dto →
        ∀ info ∈ dto.conflictingGroups,
          ∃ g ∈ db.groups, g.id = info.id
            ∧ (g.status = .PLANNED ∨ g.status = .ONGOING)) := by
  refine ⟨?_, ?_, ?_⟩
  · intro db c ex g t hg _hstatus hct htne hgt hdays hstart htime hexcl
    have hw : teacherWhere c ex t g = true := by
      simp only [teacherWhere, Bool.and_eq_true]
      exact ⟨⟨⟨by simp [hgt], hdays⟩, by simp [hstart]⟩, hexcl⟩
    have hmemf : g ∈ db.filter (teacherWhere c ex t) :=
      List.mem_filter.mpr ⟨hg, hw⟩
    have hrec : mkConflictRecord .TEACHER_CONFLICT c g
        ∈ teacherConflicts db c ex := by
      unfold teacherConflicts
      simp only [hct]
      rw [if_neg htne]
      exact pushConflicts_mem hmemf hdays
    have hmemc : mkConflictRecord .TEACHER_CONFLICT c g
        ∈ conflictsOf db c ex := by
      obtain ⟨t0, ht0⟩ := Option.isSome_iff_exists.mp htime
      unfold conflictsOf
      simp only [ht0]
      exact List.mem_append.mpr (Or.inl hrec)
    have hnil : conflictsOf db c ex ≠ [] := List.ne_nil_of_mem hmemc
    have herr : checkScheduleConflicts db c ex
        = .error { message := "Schedule conflicts detected",
                   conflicts := conflictsOf db c ex } := by
      simp only [checkScheduleConflicts]
      rw [if_pos (List.length_pos.mpr hnil)]
    exact ⟨_, herr, mkConflictRecord .TEACHER_CONFLICT c g, hmemc, rfl, rfl⟩
  · intro db c ex g t hg _hstatus hct htne hgt hdays hstart htime hexcl
    have hw : roomWhere c ex t g = true := by
      simp only [roomWhere, Bool.and_eq_true]
      exact ⟨⟨⟨by simp [hgt], hdays⟩, by simp [hstart]⟩, hexcl⟩
    have hmemf : g ∈ db.filter (roomWhere c ex t) :=
      List.mem_filter.mpr ⟨hg, hw⟩
    have hrec : mkConflictRecord .ROOM_CONFLICT c g
        ∈ roomConflicts db c ex := by
      unfold roomConflicts
      simp only [hct]
      rw [if_neg htne]
      exact pushConflicts_mem hmemf hdays
    have hmemc : mkConflictRecord .ROOM_CONFLICT c g
        ∈ conflictsOf db c ex := by
      obtain ⟨t0, ht0⟩ := Option.isSome_iff_exists.mp htime
      unfold conflictsOf
      simp only [ht0]
      exact List.mem_append.mpr (Or.inr hrec)
    have hnil : conflictsOf db c ex ≠ [] := List.ne_nil_of_mem hmemc
    have herr : checkScheduleConflicts db c ex
        = .error { message := "Schedule conflicts detected",
                   conflicts := conflictsOf db c ex } := by
      simp only [checkScheduleConflicts]
      rw [if_pos (List.length_pos.mpr hnil)]
    exact ⟨_, herr, mkConflictRecord .ROOM_CONFLICT c g, hmemc, rfl, rfl⟩
  · intro db roomId days startTime ex dto hok info hinfo
    cases hroom : db.rooms.find? (fun r => decide (r.id = roomId)) with
    | none =>
      rw [checkAvailability, hroom] at hok
      exact absurd hok (by simp)
    | some room =>
      simp only [checkAvailability, hroom] at hok
      injection hok with h'
      subst h'
      simp only [List.mem_map] at hinfo
      obtain ⟨g, hgf, hginfo⟩ := hinfo
      rw [List.mem_filter] at hgf
      have hstat := hgf.2
      simp only [availabilityWhere, Bool.and_eq_true, isActiveStatus,
        Bool.or_eq_true, decide_eq_true_eq] at hstat
      refine ⟨g, hgf.1, ?_, hstat.1.2⟩
      rw [← hginfo]

/-- C10 witness: a `COMPLETED` group still blocks the schedule checker on
the teacher dimension. -/
theorem checker_ignores_status_witness :
    ∃ ce, checkScheduleConflicts [c10Group] c10Cand none = .error ce
      ∧ ∃ r ∈ ce.conflicts, r.conflictingGroupId = c10Group.id
        ∧ r.conflictType = .TEACHER_CONFLICT :=
  checker_ignores_status.1 [c10Group] c10Cand none c10Group 3
    (by decide) (by decide) (by decide) (by decide) (by decide)
    (by decide) (by decide) (by decide) (by decide)

end EduCrm
